import Mathlib

/-!
Shallow embedding of the swipe-navigation hook
`src/modules/reader/hooks/useSwipeNavigate.ts` of Suwayomi-WebUI.

The hook's React state (`useState` / `useRef` cells) is collected into a
single record `SwipeState`.  Each event handler of the hook becomes a pure
state-transformer.  The two asynchronous primitives are modelled as
single-slot pending tasks inside the state:

* `pendingFrame` models `animationFrameRef` together with the deltas the
  scheduled `requestAnimationFrame` closure captured; a `frameEv` event
  fires it.  `cancelAnimationFrame` is clearing the slot.
* `pendingCommit` models the `setTimeout` closure scheduled in
  `handleTouchEnd` (the deferred `openPage` commit); a `timerEv` event
  fires it.  The source never stores the timeout handle, so nothing can
  clear this slot - the model mirrors that.

Calls to the external `openPage` callback are logged in `openPageCalls`.
Coordinates, times and pixel sizes are `Int`.  The one floating-point
expression of the source, `distance > window.innerWidth * (threshold/100)`,
is embedded as the integer comparison `distance * 100 > innerWidth * threshold`,
which is equivalent over the reals.
-/

namespace Swipe

inductive ReadingDirection where
  | LTR
  | RTL
deriving DecidableEq, Repr

inductive ReadingMode where
  | SINGLE_PAGE
  | DOUBLE_PAGE
  | CONTINUOUS_VERTICAL
deriving DecidableEq, Repr

inductive ReaderTransitionPageMode where
  | NONE
  | PREVIOUS
  | NEXT
  | BOTH
deriving DecidableEq, Repr

/-- Logical page direction, the values `'previous' | 'next'` of the source. -/
inductive SwipeDirection where
  | previous
  | next
deriving DecidableEq, Repr

/-- One touch point of a touch event (`clientX` / `clientY`). -/
structure Touch where
  clientX : Int
  clientY : Int
deriving DecidableEq, Repr

/-- The `touchStart` state: `{ x, y, time }` recorded on touch start. -/
structure TouchSession where
  x : Int
  y : Int
  time : Int
deriving DecidableEq, Repr

/-- Deltas captured lexically by the `requestAnimationFrame` closure scheduled
in `handleTouchMove` (`deltaY` is already the absolute value, as in line 163
of the source). -/
structure FrameTask where
  deltaX : Int
  deltaY : Int
deriving DecidableEq, Repr

/-- The configuration props of `useSwipeNavigate`, plus `window.innerWidth`. -/
structure SwipeConfig where
  readingMode : ReadingMode
  readingDirection : ReadingDirection
  swipePreviewThreshold : Int
  isSinglePageSwipeEnabled : Bool
  isSwipeAnimationEnabled : Bool
  swipeAnimationSpeed : Int
  innerWidth : Int
deriving DecidableEq, Repr

/-- The mutable state of the hook: the five `useState` cells, the
`currentOffsetRef` ref, the two pending-task slots, and the log of
`openPage` invocations. -/
structure SwipeState where
  touchStart : Option TouchSession
  isSwiping : Bool
  scrollOffset : Int
  previewDirection : Option SwipeDirection
  isTransitioning : Bool
  currentOffset : Int
  pendingFrame : Option FrameTask
  pendingCommit : Option SwipeDirection
  openPageCalls : List SwipeDirection
deriving DecidableEq, Repr

/-- Line 28: `const EDGE_SWIPE_THRESHOLD = 30`. -/
def EDGE_SWIPE_THRESHOLD : Int := 30

/-- The initial hook state: all cells at their `useState` initial values. -/
def initState : SwipeState :=
  { touchStart := none
    isSwiping := false
    scrollOffset := 0
    previewDirection := none
    isTransitioning := false
    currentOffset := 0
    pendingFrame := none
    pendingCommit := none
    openPageCalls := [] }

/-- Lines 57-63: `resetSwipeState`. -/
def resetSwipeState (s : SwipeState) : SwipeState :=
  { s with
    touchStart := none
    isSwiping := false
    scrollOffset := 0
    previewDirection := none
    currentOffset := 0 }

/-- Lines 183-187: mapping from the physical swipe direction to the logical
one, inverted for right-to-left reading. -/
def resolveDirection (rd : ReadingDirection) (isLeftSwipe : Bool) : SwipeDirection :=
  if rd = ReadingDirection.LTR then
    if isLeftSwipe then SwipeDirection.next else SwipeDirection.previous
  else
    if isLeftSwipe then SwipeDirection.previous else SwipeDirection.next

/-- Lines 115-146: `handleTouchStart`.  `now` is `Date.now()`, `touches` is
`e.touches`.  The edge check (line 123) happens before the pending animation
frame is cancelled (lines 128-131). -/
def handleTouchStart (cfg : SwipeConfig) (now : Int) (touches : List Touch)
    (s : SwipeState) : SwipeState :=
  if s.isTransitioning then s
  else
    match touches with
    | [touch] =>
      if cfg.readingMode = ReadingMode.SINGLE_PAGE ∧ cfg.isSinglePageSwipeEnabled then
        if touch.clientX ≤ EDGE_SWIPE_THRESHOLD then s
        else
          { s with
            pendingFrame := none
            touchStart := some ⟨touch.clientX, touch.clientY, now⟩
            isSwiping := false
            scrollOffset := 0
            previewDirection := none
            currentOffset := 0 }
      else s
    | _ => s

/-- Lines 148-197: `handleTouchMove`.  A move replaces any pending animation
frame with a fresh one capturing the current deltas, and writes the raw
horizontal displacement to `currentOffsetRef` synchronously. -/
def handleTouchMove (cfg : SwipeConfig) (touches : List Touch)
    (s : SwipeState) : SwipeState :=
  match touches with
  | [touch] =>
    match s.touchStart with
    | none => s
    | some ts =>
      if cfg.readingMode ≠ ReadingMode.SINGLE_PAGE ∨ cfg.isSinglePageSwipeEnabled = false
          ∨ s.isTransitioning then s
      else if cfg.isSwipeAnimationEnabled then
        { s with
          currentOffset := touch.clientX - ts.x
          pendingFrame := some ⟨touch.clientX - ts.x, |touch.clientY - ts.y|⟩ }
      else s
  | _ => s

/-- Lines 174-193: the body of the `requestAnimationFrame` callback, run when
the browser grants a frame while one is pending.  It reads
`currentOffsetRef.current` for the offset and the captured deltas for the
preview decision (they coincide, since every move rewrites both). -/
def fireFrame (cfg : SwipeConfig) (s : SwipeState) : SwipeState :=
  match s.pendingFrame with
  | none => s
  | some task =>
    let s1 := { s with pendingFrame := none, scrollOffset := s.currentOffset }
    if |task.deltaX| > task.deltaY ∧ |task.deltaX| > 5 then
      { s1 with
        isSwiping := true
        previewDirection := some (resolveDirection cfg.readingDirection (task.deltaX < 0)) }
    else
      { s1 with isSwiping := false, previewDirection := none }

/-- Lines 219-221: the commit condition of `handleTouchEnd`.  The percentage
comparison `distance > innerWidth * (threshold / 100)` is scaled by 100 to
stay in integers. -/
def shouldTrigger (cfg : SwipeConfig) (swipeTime deltaX deltaY : Int) : Prop :=
  (swipeTime < 300 ∧ |deltaX| > 50) ∨
    (|deltaX| * 100 > cfg.innerWidth * cfg.swipePreviewThreshold ∧ |deltaX| > deltaY)

instance (cfg : SwipeConfig) (swipeTime deltaX deltaY : Int) :
    Decidable (shouldTrigger cfg swipeTime deltaX deltaY) := by
  unfold shouldTrigger
  infer_instance

/-- Lines 199-253: `handleTouchEnd`.  `now` is `Date.now()`, `touch` is
`e.changedTouches[0]`.  The pending animation frame is cancelled first
(lines 202-205).  On an animated commit the handler returns before the
trailing `resetSwipeState` (line 236), leaving the deferred `setTimeout`
commit in `pendingCommit`; on a non-animated commit `openPage` is called
synchronously. -/
def handleTouchEnd (cfg : SwipeConfig) (now : Int) (touch : Touch)
    (s : SwipeState) : SwipeState :=
  let s0 := { s with pendingFrame := none }
  match s.touchStart with
  | none => resetSwipeState s0
  | some ts =>
    if cfg.readingMode ≠ ReadingMode.SINGLE_PAGE ∨ cfg.isSinglePageSwipeEnabled = false then
      resetSwipeState s0
    else
      let deltaX := touch.clientX - ts.x
      let deltaY := |touch.clientY - ts.y|
      let swipeTime := now - ts.time
      if shouldTrigger cfg swipeTime deltaX deltaY then
        if cfg.isSwipeAnimationEnabled then
          let targetOffset := if deltaX > 0 then cfg.innerWidth else -cfg.innerWidth
          { s0 with
            isTransitioning := true
            touchStart := none
            scrollOffset := targetOffset
            currentOffset := targetOffset
            pendingCommit :=
              some (if deltaX < 0 then SwipeDirection.next else SwipeDirection.previous) }
        else
          resetSwipeState
            { s0 with
              openPageCalls := s0.openPageCalls ++
                [if deltaX < 0 then SwipeDirection.next else SwipeDirection.previous] }
      else resetSwipeState s0

/-- Lines 231-235: the body of the deferred `setTimeout` commit, run when the
timer fires while a commit is pending: `openPage`, `resetSwipeState`,
`setIsTransitioning(false)`. -/
def fireTimer (s : SwipeState) : SwipeState :=
  match s.pendingCommit with
  | none => s
  | some dir =>
    let s1 := resetSwipeState
      { s with
        pendingCommit := none
        openPageCalls := s.openPageCalls ++ [dir] }
    { s1 with isTransitioning := false }

/-- Lines 104-113: the unmount cleanup effect.  It cancels the pending
animation frame; the deferred `setTimeout` commit has no stored handle in the
source and so cannot be cancelled. -/
def unmountCleanup (s : SwipeState) : SwipeState :=
  { s with pendingFrame := none }

/-- The events that can reach the hook: the three touch handlers plus the two
asynchronous callbacks firing. -/
inductive SEvent where
  | touchStartEv (now : Int) (touches : List Touch)
  | touchMoveEv (touches : List Touch)
  | frameEv
  | touchEndEv (now : Int) (touch : Touch)
  | timerEv
deriving DecidableEq, Repr

/-- One step of the hook's event-driven state machine. -/
def step (cfg : SwipeConfig) (s : SwipeState) : SEvent → SwipeState
  | SEvent.touchStartEv now touches => handleTouchStart cfg now touches s
  | SEvent.touchMoveEv touches => handleTouchMove cfg touches s
  | SEvent.frameEv => fireFrame cfg s
  | SEvent.touchEndEv now touch => handleTouchEnd cfg now touch s
  | SEvent.timerEv => fireTimer s

/-- Running a sequence of events. -/
def runEvents (cfg : SwipeConfig) (s : SwipeState) (es : List SEvent) : SwipeState :=
  es.foldl (step cfg) s

/-- Events of `SEvent` that are neither a touch-end nor a timer firing; these
can never invoke `openPage`. -/
def nonCommitEvent : SEvent → Prop
  | SEvent.touchStartEv _ _ => True
  | SEvent.touchMoveEv _ => True
  | SEvent.frameEv => True
  | SEvent.touchEndEv _ _ => False
  | SEvent.timerEv => False

/-- A single image reference of a page entry: logical index and URL. -/
structure PageRef where
  index : Nat
  url : String
deriving DecidableEq, Repr

/-- One entry of the pages list: its position `pagesIndex` in the collection,
a primary image and an optional secondary image (dual-page spreads). -/
structure PageEntry where
  pagesIndex : Nat
  primary : PageRef
  secondary : Option PageRef
deriving DecidableEq, Repr

/-- Line 272: the predicate of the `pages.find` call - an entry matches a
logical index when its primary index or its optional secondary index equals
it. -/
def pageMatch (idx : Nat) (p : PageEntry) : Bool :=
  p.primary.index == idx || p.secondary.map PageRef.index == some idx

/-- Modelled from the spec: `getPage` lives in
`ReaderProgressBar.utils.tsx`, which is not part of the source tree.  The
spec describes the Page Index collaborator as mapping the logical reading
position to the page entry holding it, so the entry whose primary or
secondary logical index equals the requested one is selected (with a default
entry as the defensive fallback). -/
def getPage (pageIndex : Nat) (pages : List PageEntry) : PageEntry :=
  (pages.find? (pageMatch pageIndex)).getD ⟨0, ⟨0, ""⟩, none⟩

/-- Modelled from the spec: `getNextPageIndex` lives in
`ReaderProgressBar.utils.tsx`, which is not part of the source tree.  The
spec describes it as resolving "the page at logical position adjacent to
current, in direction D", so it returns the primary logical index of the
neighbouring entry.  It is only invoked off-boundary. -/
def getNextPageIndex (dir : SwipeDirection) (pagesIndex : Nat)
    (pages : List PageEntry) : Nat :=
  match dir with
  | SwipeDirection.previous =>
    ((pages.get? (pagesIndex - 1)).map fun p => p.primary.index).getD 0
  | SwipeDirection.next =>
    ((pages.get? (pagesIndex + 1)).map fun p => p.primary.index).getD 0

/-- Lines 257-266: the `previewPageIndex` memo. -/
def previewPageIndex (previewDirection : Option SwipeDirection)
    (transitionPageMode : ReaderTransitionPageMode)
    (currentPageIndex : Nat) (pages : List PageEntry) : Option Nat :=
  match previewDirection with
  | none => none
  | some dir =>
    if transitionPageMode ≠ ReaderTransitionPageMode.NONE then none
    else
      let pagesIndex := (getPage currentPageIndex pages).pagesIndex
      if (dir = SwipeDirection.previous ∧ pagesIndex = 0) ∨
          (dir = SwipeDirection.next ∧ pagesIndex = pages.length - 1) then none
      else some (getNextPageIndex dir pagesIndex pages)

/-- Lines 268-277: the `previewPageUrl` memo, as a function of the resolved
preview index. -/
def previewPageUrlOf (previewIdx : Option Nat) (pages : List PageEntry) : Option String :=
  match previewIdx with
  | none => none
  | some idx =>
    match pages.find? (pageMatch idx) with
    | none => none
    | some p =>
      if p.primary.index = idx then some p.primary.url
      else p.secondary.map PageRef.url

/-- The composed preview resolution: `previewPageUrl` over `previewPageIndex`. -/
def previewPageUrl (previewDirection : Option SwipeDirection)
    (transitionPageMode : ReaderTransitionPageMode)
    (currentPageIndex : Nat) (pages : List PageEntry) : Option String :=
  previewPageUrlOf (previewPageIndex previewDirection transitionPageMode currentPageIndex pages)
    pages

/-- A touch point is vertical-dominant relative to a session when its
horizontal displacement magnitude does not exceed its vertical one. -/
def vertDominant (ts : TouchSession) (t : Touch) : Prop :=
  |t.clientX - ts.x| ≤ |t.clientY - ts.y|

instance (ts : TouchSession) (t : Touch) : Decidable (vertDominant ts t) := by
  unfold vertDominant
  infer_instance

/-- Mid-gesture events (moves and frame grants) of a gesture all of whose
touch points are vertical-dominant. -/
def gestureEvent (ts : TouchSession) : SEvent → Prop
  | SEvent.touchMoveEv touches => ∀ t ∈ touches, vertDominant ts t
  | SEvent.frameEv => True
  | _ => False

instance (ts : TouchSession) : (e : SEvent) → Decidable (gestureEvent ts e)
  | SEvent.touchStartEv _ _ => inferInstanceAs (Decidable False)
  | SEvent.touchMoveEv touches =>
    inferInstanceAs (Decidable (∀ t ∈ touches, vertDominant ts t))
  | SEvent.frameEv => inferInstanceAs (Decidable True)
  | SEvent.touchEndEv _ _ => inferInstanceAs (Decidable False)
  | SEvent.timerEv => inferInstanceAs (Decidable False)

/-- A pending frame task whose captured deltas are vertical-dominant (or no
pending task at all). -/
def frameVert : Option FrameTask → Prop
  | none => True
  | some task => |task.deltaX| ≤ task.deltaY

instance : (o : Option FrameTask) → Decidable (frameVert o)
  | none => inferInstanceAs (Decidable True)
  | some task => inferInstanceAs (Decidable (|task.deltaX| ≤ task.deltaY))

/-- The state of a tracked gesture that has produced no preview and no
`openPage` call beyond the log `c0`, and whose pending frame (if any) is
vertical-dominant. -/
def quietState (ts : TouchSession) (c0 : List SwipeDirection) (s : SwipeState) : Prop :=
  s.touchStart = some ts ∧ s.previewDirection = none ∧ s.openPageCalls = c0 ∧
    s.pendingCommit = none ∧ frameVert s.pendingFrame

instance (ts : TouchSession) (c0 : List SwipeDirection) (s : SwipeState) :
    Decidable (quietState ts c0 s) := by
  unfold quietState
  infer_instance

/-- The structural invariant of the hook state claimed by the spec:
a transition in flight excludes an open touch session, and a preview
direction exists only while swiping or transitioning. -/
def Inv (s : SwipeState) : Prop :=
  (s.isTransitioning = true → s.touchStart = none) ∧
    (s.previewDirection ≠ none → s.isSwiping = true ∨ s.isTransitioning = true)

instance (s : SwipeState) : Decidable (Inv s) := by
  unfold Inv
  infer_instance

/-- Fixture: a touch session opened at (100, 100) at time 0. -/
def tsW : TouchSession := ⟨100, 100, 0⟩

/-- Fixture: initial state with the session `tsW` open. -/
def sW : SwipeState := { initState with touchStart := some tsW }

/-- Fixture: LTR single-page configuration with animation enabled. -/
def cfgLTR : SwipeConfig :=
  ⟨ReadingMode.SINGLE_PAGE, ReadingDirection.LTR, 30, true, true, 300, 1000⟩

/-- Fixture: RTL single-page configuration with animation enabled. -/
def cfgRTL : SwipeConfig :=
  ⟨ReadingMode.SINGLE_PAGE, ReadingDirection.RTL, 30, true, true, 300, 1000⟩

/-- Fixture: LTR single-page configuration with animation disabled. -/
def cfgNoAnim : SwipeConfig :=
  ⟨ReadingMode.SINGLE_PAGE, ReadingDirection.LTR, 30, true, false, 300, 1000⟩

/-- Fixture: animation disabled and a 50% width threshold (500 px at a
1000 px viewport), so that a 60 px fling sits below the percentage
threshold. -/
def cfgHighThr : SwipeConfig :=
  ⟨ReadingMode.SINGLE_PAGE, ReadingDirection.LTR, 50, true, false, 300, 1000⟩

/-- Fixture for C10: the first entry's secondary index (7) collides with the
second entry's primary index (7). -/
def pagesX : List PageEntry :=
  [⟨0, ⟨0, "p0"⟩, some ⟨7, "s0"⟩⟩, ⟨1, ⟨7, "p1"⟩, none⟩]

/-- Fixture: a plain two-page collection. -/
def pagesW : List PageEntry :=
  [⟨0, ⟨0, "a"⟩, none⟩, ⟨1, ⟨1, "b"⟩, none⟩]

/-- C1: with a right-to-left reading direction, a leftward swipe (end x below
start x) sets the preview to logical `previous` during the move, but the
commit path of `handleTouchEnd` passes `next` to `openPage`: the direction
argument on commit ignores the reading direction (it is computed from the raw
sign of `deltaX` alone at lines 232/238), so preview and commit disagree on
this gesture, contradicting the claimed mapping for the commit. -/
theorem claim_C1_rtl_commit_mismatch :
    (runEvents cfgRTL initState
      [SEvent.touchStartEv 0 [⟨100, 100⟩], SEvent.touchMoveEv [⟨40, 100⟩],
        SEvent.frameEv]).previewDirection = some SwipeDirection.previous ∧
    (runEvents cfgRTL initState
      [SEvent.touchStartEv 0 [⟨100, 100⟩], SEvent.touchMoveEv [⟨40, 100⟩],
        SEvent.frameEv, SEvent.touchEndEv 100 ⟨30, 100⟩,
        SEvent.timerEv]).openPageCalls = [SwipeDirection.next] := by
  exact ⟨rfl, rfl⟩

/-- C2 counterexample: a gesture with no move events whose touch-end
displacement is vertical-dominant (|Δx| = 60 ≤ 200 = |Δy|), released after
100 ms.  The fling branch of `shouldTrigger` (line 220) has no
vertical-dominance guard, so `openPage` is called even though the horizontal
displacement magnitude never exceeded the vertical one. -/
theorem claim_C2_fling_hijack :
    vertDominant ⟨100, 100, 0⟩ ⟨160, 300⟩ ∧
    (runEvents cfgNoAnim initState
      [SEvent.touchStartEv 0 [⟨100, 100⟩],
        SEvent.touchEndEv 100 ⟨160, 300⟩]).openPageCalls = [SwipeDirection.previous] := by
  exact ⟨by decide, rfl⟩

/-- C3: a fling with animation enabled leaves the deferred `setTimeout`
commit pending (`pendingCommit`); the unmount cleanup effect (lines 104-113)
cancels only the animation frame, the timeout handle is never stored, so the
deferred commit still fires after teardown and invokes `openPage`. -/
theorem claim_C3_commit_fires_after_teardown :
    (runEvents cfgLTR initState
      [SEvent.touchStartEv 0 [⟨100, 100⟩],
        SEvent.touchEndEv 100 ⟨200, 100⟩]).pendingCommit = some SwipeDirection.previous ∧
    (runEvents cfgLTR initState
      [SEvent.touchStartEv 0 [⟨100, 100⟩],
        SEvent.touchEndEv 100 ⟨200, 100⟩]).openPageCalls = [] ∧
    (fireTimer (unmountCleanup (runEvents cfgLTR initState
      [SEvent.touchStartEv 0 [⟨100, 100⟩],
        SEvent.touchEndEv 100 ⟨200, 100⟩]))).openPageCalls = [SwipeDirection.previous] := by
  exact ⟨rfl, rfl, rfl⟩

/-- C7: a touch starting at or below the 30 px edge-exclusion band leaves the
entire hook state unchanged: `handleTouchStart` returns before touching any
state cell (line 123 precedes every write). -/
theorem claim_C7_edge_touch_ignored (cfg : SwipeConfig) (now : Int) (t : Touch)
    (s : SwipeState) (h : t.clientX ≤ EDGE_SWIPE_THRESHOLD) :
    handleTouchStart cfg now [t] s = s := by
  unfold handleTouchStart
  split
  · rfl
  · split
    · rename_i touch heq
      obtain rfl : touch = t := by
        injection heq with h1 _
        exact h1.symm
      rw [if_pos h]
      split <;> rfl
    · rename_i hno
      exact absurd rfl (hno t)

/-- Witness for C7 at the concrete touch (20, 100). -/
theorem claim_C7_witness :
    (20 : Int) ≤ EDGE_SWIPE_THRESHOLD ∧
      handleTouchStart cfgLTR 0 [⟨20, 100⟩] initState = initState :=
  ⟨by decide, claim_C7_edge_touch_ignored cfgLTR 0 ⟨20, 100⟩ initState (by decide)⟩

/-- C10 counterexample: in `pagesX` the second entry's primary index equals
the preview index 7, so the claim requires its primary URL "p1"; but the
`find` of lines 271-273 selects the first entry matching on either index, and
that entry matches only on its secondary, so the secondary URL "s0" is
returned instead. -/
theorem claim_C10_first_match_shadows_primary :
    (pagesX.map fun p => p.primary.index) = [0, 7] ∧
    ((pagesX.get? 1).map fun p => p.primary.url) = some "p1" ∧
    previewPageUrlOf (some 7) pagesX = some "s0" ∧ ("s0" : String) ≠ "p1" := by
  exact ⟨rfl, rfl, rfl, by decide⟩

/-- C4: preview resolution yields no URL (and cannot crash, being total) in
each degenerate case: the current page is the first and the direction is
`previous`; the current page is the last and the direction is `next`; the
external transition-page mode is anything other than `NONE`; or no entry's
primary or secondary index matches the computed preview index. -/
theorem claim_C4_no_preview_cases (tpm : ReaderTransitionPageMode) (cur : Nat)
    (pages : List PageEntry) (pd : Option SwipeDirection) (idx : Nat) :
    ((getPage cur pages).pagesIndex = 0 →
      previewPageUrl (some SwipeDirection.previous) tpm cur pages = none) ∧
    ((getPage cur pages).pagesIndex = pages.length - 1 →
      previewPageUrl (some SwipeDirection.next) tpm cur pages = none) ∧
    (tpm ≠ ReaderTransitionPageMode.NONE → previewPageUrl pd tpm cur pages = none) ∧
    ((∀ p ∈ pages, p.primary.index ≠ idx ∧ ∀ sec, p.secondary = some sec → sec.index ≠ idx) →
      previewPageUrlOf (some idx) pages = none) := by
  refine ⟨?_, ?_, ?_, ?_⟩
  · intro h
    simp only [previewPageUrl, previewPageIndex]
    split
    · rfl
    · rw [if_pos (Or.inl ⟨trivial, h⟩)]
      rfl
  · intro h
    simp only [previewPageUrl, previewPageIndex]
    split
    · rfl
    · rw [if_pos (Or.inr ⟨trivial, h⟩)]
      rfl
  · intro h
    cases pd with
    | none => rfl
    | some dir =>
      simp only [previewPageUrl, previewPageIndex]
      rw [if_pos h]
      rfl
  · intro h
    simp only [previewPageUrlOf]
    have hfind : pages.find? (pageMatch idx) = none := by
      rw [List.find?_eq_none]
      intro p hp
      obtain ⟨h1, h2⟩ := h p hp
      simp only [pageMatch, Bool.or_eq_true, beq_iff_eq, not_or]
      refine ⟨h1, ?_⟩
      intro hmap
      rw [Option.map_eq_some'] at hmap
      obtain ⟨sec, hsec, hidx⟩ := hmap
      exact h2 sec hsec hidx
    rw [hfind]

/-- Witness for C4 instantiating all four degenerate cases on `pagesW`. -/
theorem claim_C4_witness :
    (getPage 0 pagesW).pagesIndex = 0 ∧
    previewPageUrl (some SwipeDirection.previous) ReaderTransitionPageMode.NONE 0 pagesW
      = none ∧
    (getPage 1 pagesW).pagesIndex = pagesW.length - 1 ∧
    previewPageUrl (some SwipeDirection.next) ReaderTransitionPageMode.NONE 1 pagesW
      = none ∧
    previewPageUrl (some SwipeDirection.next) ReaderTransitionPageMode.BOTH 0 pagesW
      = none ∧
    previewPageUrlOf (some 9) pagesW = none := by
  refine ⟨by decide, ?_, by decide, ?_, ?_, ?_⟩
  · exact (claim_C4_no_preview_cases ReaderTransitionPageMode.NONE 0 pagesW none 9).1
      (by decide)
  · exact (claim_C4_no_preview_cases ReaderTransitionPageMode.NONE 1 pagesW none 9).2.1
      (by decide)
  · exact (claim_C4_no_preview_cases ReaderTransitionPageMode.BOTH 0 pagesW
      (some SwipeDirection.next) 9).2.2.1 (by decide)
  · exact (claim_C4_no_preview_cases ReaderTransitionPageMode.NONE 0 pagesW none 9).2.2.2
      (by decide)

/-- C5: a release with elapsed time strictly below 300 ms and horizontal
distance strictly above 50 px commits exactly one `openPage` call for any
configuration, in particular with no lower bound on the
percentage-of-viewport threshold; the call happens synchronously when
animation is disabled and when the deferred timer fires otherwise. -/
theorem claim_C5_fling_commits (cfg : SwipeConfig) (s : SwipeState) (ts : TouchSession)
    (now : Int) (t : Touch)
    (hts : s.touchStart = some ts) (hpc : s.pendingCommit = none)
    (hmode : cfg.readingMode = ReadingMode.SINGLE_PAGE)
    (hen : cfg.isSinglePageSwipeEnabled = true)
    (htime : now - ts.time < 300) (hdist : |t.clientX - ts.x| > 50) :
    (fireTimer (handleTouchEnd cfg now t s)).openPageCalls =
      s.openPageCalls ++
        [if t.clientX - ts.x < 0 then SwipeDirection.next else SwipeDirection.previous] := by
  have htrig : shouldTrigger cfg (now - ts.time) (t.clientX - ts.x) |t.clientY - ts.y| := by
    unfold shouldTrigger
    exact Or.inl ⟨htime, hdist⟩
  simp only [handleTouchEnd, hts]
  rw [if_neg (by simp [hmode, hen]), if_pos htrig]
  by_cases hanim : cfg.isSwipeAnimationEnabled = true
  · rw [if_pos hanim]
    simp [fireTimer, resetSwipeState]
  · rw [if_neg hanim]
    simp [fireTimer, resetSwipeState, hpc]

/-- Witness for C5: a 60 px fling in 100 ms at a 1000 px viewport with a 50%
threshold (500 px), i.e. far below the percentage threshold, still commits. -/
theorem claim_C5_witness :
    sW.touchStart = some tsW ∧ sW.pendingCommit = none ∧
    ((100 : Int) - 0 < 300) ∧ (|(160 : Int) - 100| > 50) ∧
    (|(160 : Int) - 100| * 100 ≤ cfgHighThr.innerWidth * cfgHighThr.swipePreviewThreshold) ∧
    (fireTimer (handleTouchEnd cfgHighThr 100 ⟨160, 100⟩ sW)).openPageCalls =
      [SwipeDirection.previous] := by
  refine ⟨rfl, rfl, by decide, by decide, by decide, ?_⟩
  have h := claim_C5_fling_commits cfgHighThr sW tsW 100 ⟨160, 100⟩ rfl rfl rfl rfl
    (by decide) (by decide)
  rw [h]
  decide

/-- C8 counterexample: with `isSwipeAnimationEnabled = false` the gesture is
still tracked (all tracking preconditions hold), yet `handleTouchMove` is a
no-op - the entire move branch sits inside `if (isSwipeAnimationEnabled)`
(line 160) - so the offset stays 0 instead of following the 10 px
displacement, refuting the configuration-independence part of the claim. -/
theorem claim_C8_no_offset_when_animation_disabled :
    sW.touchStart = some tsW ∧ sW.isTransitioning = false ∧
    cfgNoAnim.readingMode = ReadingMode.SINGLE_PAGE ∧
    cfgNoAnim.isSinglePageSwipeEnabled = true ∧
    handleTouchMove cfgNoAnim [⟨110, 100⟩] sW = sW ∧
    (fireFrame cfgNoAnim (handleTouchMove cfgNoAnim [⟨110, 100⟩] sW)).scrollOffset = 0 ∧
    ((110 : Int) - 100 ≠ 0) := by
  exact ⟨rfl, rfl, rfl, rfl, by decide, by decide, by decide⟩

/-- C8 amended: when swipe animation is enabled (in addition to the tracking
preconditions), every move writes the raw horizontal displacement to the
offset ref, replaces whatever frame task was pending with one carrying the
new deltas (so at most one is ever pending), and the granted frame publishes
exactly that displacement as the visual offset. -/
theorem claim_C8_amended_offset_follows (cfg : SwipeConfig) (s : SwipeState)
    (ts : TouchSession) (t : Touch)
    (hts : s.touchStart = some ts)
    (hmode : cfg.readingMode = ReadingMode.SINGLE_PAGE)
    (hen : cfg.isSinglePageSwipeEnabled = true)
    (htr : s.isTransitioning = false)
    (hanim : cfg.isSwipeAnimationEnabled = true) :
    (handleTouchMove cfg [t] s).currentOffset = t.clientX - ts.x ∧
    (handleTouchMove cfg [t] s).pendingFrame =
      some ⟨t.clientX - ts.x, |t.clientY - ts.y|⟩ ∧
    (fireFrame cfg (handleTouchMove cfg [t] s)).scrollOffset = t.clientX - ts.x := by
  have hmove : handleTouchMove cfg [t] s =
      { s with
        currentOffset := t.clientX - ts.x
        pendingFrame := some ⟨t.clientX - ts.x, |t.clientY - ts.y|⟩ } := by
    simp only [handleTouchMove, hts]
    rw [if_neg (by simp [hmode, hen, htr]), if_pos hanim]
  rw [hmove]
  refine ⟨rfl, rfl, ?_⟩
  simp only [fireFrame]
  split <;> rfl

/-- Witness for C8 amended: a 50 px rightward move from `tsW`. -/
theorem claim_C8_witness :
    (handleTouchMove cfgLTR [⟨150, 120⟩] sW).currentOffset = 50 ∧
    (fireFrame cfgLTR (handleTouchMove cfgLTR [⟨150, 120⟩] sW)).scrollOffset = 50 := by
  have h := claim_C8_amended_offset_follows cfgLTR sW tsW ⟨150, 120⟩ rfl rfl rfl rfl rfl
  exact ⟨h.1.trans (by decide), h.2.2.trans (by decide)⟩

/-- Helper: `resetSwipeState` always re-establishes the invariant. -/
theorem inv_reset (s : SwipeState) : Inv (resetSwipeState s) :=
  ⟨fun _ => rfl, fun hp => absurd rfl hp⟩

/-- Helper: `handleTouchStart` preserves the invariant. -/
theorem inv_handleTouchStart (cfg : SwipeConfig) (now : Int) (touches : List Touch)
    (s : SwipeState) (h : Inv s) : Inv (handleTouchStart cfg now touches s) := by
  obtain ⟨h1, h2⟩ := h
  unfold handleTouchStart
  split
  · exact ⟨h1, h2⟩
  · rename_i htr
    split
    · split
      · split
        · exact ⟨h1, h2⟩
        · exact ⟨fun hc => absurd hc htr, fun hp => absurd rfl hp⟩
      · exact ⟨h1, h2⟩
    · exact ⟨h1, h2⟩

/-- Helper: `handleTouchMove` preserves the invariant (it only touches the
offset ref and the pending frame slot). -/
theorem inv_handleTouchMove (cfg : SwipeConfig) (touches : List Touch)
    (s : SwipeState) (h : Inv s) : Inv (handleTouchMove cfg touches s) := by
  obtain ⟨h1, h2⟩ := h
  unfold handleTouchMove
  (repeat' split) <;> exact ⟨h1, h2⟩

/-- Helper: firing the pending animation frame preserves the invariant. -/
theorem inv_fireFrame (cfg : SwipeConfig) (s : SwipeState) (h : Inv s) :
    Inv (fireFrame cfg s) := by
  obtain ⟨h1, h2⟩ := h
  simp only [fireFrame]
  split
  · exact ⟨h1, h2⟩
  · split
    · exact ⟨h1, fun _ => Or.inl rfl⟩
    · exact ⟨h1, fun hp => absurd rfl hp⟩

/-- Helper: `handleTouchEnd` preserves the invariant; in particular the
animated-commit branch sets `isTransitioning` and clears the session in the
same update. -/
theorem inv_handleTouchEnd (cfg : SwipeConfig) (now : Int) (touch : Touch)
    (s : SwipeState) (h : Inv s) : Inv (handleTouchEnd cfg now touch s) := by
  obtain ⟨h1, h2⟩ := h
  simp only [handleTouchEnd]
  split
  · exact inv_reset _
  · split
    · exact inv_reset _
    · split
      · split
        · exact ⟨fun _ => rfl, fun _ => Or.inr rfl⟩
        · exact inv_reset _
      · exact inv_reset _

/-- Helper: firing the deferred commit preserves the invariant. -/
theorem inv_fireTimer (s : SwipeState) (h : Inv s) : Inv (fireTimer s) := by
  obtain ⟨h1, h2⟩ := h
  simp only [fireTimer]
  split
  · exact ⟨h1, h2⟩
  · exact ⟨fun _ => rfl, fun hp => absurd rfl hp⟩

/-- Helper: every event of the state machine preserves the invariant. -/
theorem inv_step (cfg : SwipeConfig) (s : SwipeState) (e : SEvent) (h : Inv s) :
    Inv (step cfg s e) := by
  cases e with
  | touchStartEv now touches => exact inv_handleTouchStart cfg now touches s h
  | touchMoveEv touches => exact inv_handleTouchMove cfg touches s h
  | frameEv => exact inv_fireFrame cfg s h
  | touchEndEv now touch => exact inv_handleTouchEnd cfg now touch s h
  | timerEv => exact inv_fireTimer s h

/-- Helper: the invariant is preserved along any event sequence. -/
theorem inv_runEvents (cfg : SwipeConfig) (es : List SEvent) (s : SwipeState)
    (h : Inv s) : Inv (runEvents cfg s es) := by
  induction es generalizing s with
  | nil => exact h
  | cons e es ih => exact ih (step cfg s e) (inv_step cfg s e h)

/-- C9: in every state reachable from the idle state by any sequence of
touch-start, touch-move, touch-end, animation-frame and timer events,
`isTransitioning` implies the touch session is cleared, and a non-null
preview direction implies swiping or transitioning. -/
theorem claim_C9_reachable_invariant (cfg : SwipeConfig) (es : List SEvent) :
    Inv (runEvents cfg initState es) :=
  inv_runEvents cfg es initState ⟨fun _ => rfl, fun hp => absurd rfl hp⟩

/-- Witness for C9 on a concrete event sequence ending mid-transition. -/
theorem claim_C9_witness :
    Inv (runEvents cfgLTR initState
      [SEvent.touchStartEv 0 [⟨100, 100⟩], SEvent.touchMoveEv [⟨200, 100⟩],
        SEvent.frameEv, SEvent.touchEndEv 100 ⟨200, 100⟩]) :=
  claim_C9_reachable_invariant cfgLTR
    [SEvent.touchStartEv 0 [⟨100, 100⟩], SEvent.touchMoveEv [⟨200, 100⟩],
      SEvent.frameEv, SEvent.touchEndEv 100 ⟨200, 100⟩]

/-- Helper: a mid-gesture event of a vertical-dominant gesture keeps the
state quiet - the pending frame it may install carries vertical-dominant
deltas, so the preview decision always takes the clearing branch. -/
theorem quiet_step (cfg : SwipeConfig) (ts : TouchSession) (c0 : List SwipeDirection)
    (s : SwipeState) (h : quietState ts c0 s) (e : SEvent) (he : gestureEvent ts e) :
    quietState ts c0 (step cfg s e) := by
  obtain ⟨hts, hprev, hcalls, hpc, hpf⟩ := h
  cases e with
  | touchStartEv now touches => exact he.elim
  | touchEndEv now touch => exact he.elim
  | timerEv => exact he.elim
  | frameEv =>
    simp only [step, fireFrame]
    split
    · exact ⟨hts, hprev, hcalls, hpc, hpf⟩
    · rename_i task heq
      rw [heq] at hpf
      split
      · rename_i hcond
        exact absurd hpf (not_le.mpr hcond.1)
      · exact ⟨hts, rfl, hcalls, hpc, trivial⟩
  | touchMoveEv touches =>
    simp only [step, handleTouchMove]
    split
    · rename_i touch
      simp only [hts]
      split
      · exact ⟨hts, hprev, hcalls, hpc, hpf⟩
      · split
        · exact ⟨rfl, hprev, hcalls, hpc, he touch (List.mem_singleton.mpr rfl)⟩
        · exact ⟨hts, hprev, hcalls, hpc, hpf⟩
    · exact ⟨hts, hprev, hcalls, hpc, hpf⟩

/-- Helper: quietness is preserved along any sequence of vertical-dominant
mid-gesture events. -/
theorem quiet_run (cfg : SwipeConfig) (ts : TouchSession) (c0 : List SwipeDirection)
    (es : List SEvent) (s : SwipeState) (h : quietState ts c0 s)
    (hes : ∀ e ∈ es, gestureEvent ts e) : quietState ts c0 (runEvents cfg s es) := by
  induction es generalizing s with
  | nil => exact h
  | cons e es ih =>
    exact ih (step cfg s e) (quiet_step cfg ts c0 s h e (hes e (List.mem_cons_self e es)))
      (fun e' he' => hes e' (List.mem_cons_of_mem e he'))

/-- C2 amended: for every tracked gesture all of whose move events and whose
touch-end are vertical-dominant (horizontal displacement magnitude never
exceeding the vertical one), the preview direction is never set to a non-null
value; and `openPage` is not called at release UNLESS the release qualifies
as a fling (elapsed time below 300 ms and horizontal distance above 50 px) -
the fling branch of line 220 checks no vertical dominance, which is exactly
the correction the counterexample forces. -/
theorem claim_C2_amended_vertical_no_hijack (cfg : SwipeConfig) (ts : TouchSession)
    (c0 : List SwipeDirection) (s0 : SwipeState) (h0 : quietState ts c0 s0)
    (es : List SEvent) (hes : ∀ e ∈ es, gestureEvent ts e) :
    (∀ es1 es2, es = es1 ++ es2 →
      (runEvents cfg s0 es1).previewDirection = none) ∧
    (∀ now t, vertDominant ts t →
      ¬(now - ts.time < 300 ∧ |t.clientX - ts.x| > 50) →
      (handleTouchEnd cfg now t (runEvents cfg s0 es)).openPageCalls = c0 ∧
      (handleTouchEnd cfg now t (runEvents cfg s0 es)).previewDirection = none) := by
  constructor
  · intro es1 es2 hsplit
    have h1 : quietState ts c0 (runEvents cfg s0 es1) :=
      quiet_run cfg ts c0 es1 s0 h0
        (fun e he => hes e (hsplit ▸ List.mem_append_left es2 he))
    exact h1.2.1
  · intro now t hvd hnofling
    obtain ⟨hts, hprev, hcalls, hpc, hpf⟩ := quiet_run cfg ts c0 es s0 h0 hes
    simp only [handleTouchEnd, hts]
    split
    · exact ⟨hcalls, rfl⟩
    · have hno : ¬shouldTrigger cfg (now - ts.time) (t.clientX - ts.x)
          |t.clientY - ts.y| := by
        unfold shouldTrigger
        rintro (⟨ha, hb⟩ | ⟨ha, hb⟩)
        · exact hnofling ⟨ha, hb⟩
        · exact absurd hvd (not_le.mpr hb)
      rw [if_neg hno]
      exact ⟨hcalls, rfl⟩

/-- Witness for C2 amended: a purely vertical drag (x fixed, 200 px down)
released slowly never previews and never commits. -/
theorem claim_C2_amended_witness :
    quietState tsW [] sW ∧
    (handleTouchEnd cfgLTR 1000 ⟨100, 300⟩
      (runEvents cfgLTR sW [SEvent.touchMoveEv [⟨100, 300⟩], SEvent.frameEv])).openPageCalls
      = [] ∧
    (runEvents cfgLTR sW [SEvent.touchMoveEv [⟨100, 300⟩]]).previewDirection = none := by
  refine ⟨by decide, ?_, ?_⟩
  · have h := claim_C2_amended_vertical_no_hijack cfgLTR tsW [] sW (by decide)
      [SEvent.touchMoveEv [⟨100, 300⟩], SEvent.frameEv] (by decide)
    exact (h.2 1000 ⟨100, 300⟩ (by decide) (by decide)).1
  · have h := claim_C2_amended_vertical_no_hijack cfgLTR tsW [] sW (by decide)
      [SEvent.touchMoveEv [⟨100, 300⟩], SEvent.frameEv] (by decide)
    exact h.1 [SEvent.touchMoveEv [⟨100, 300⟩]] [SEvent.frameEv] rfl

/-- Helper: closed form of `handleTouchEnd` for a tracked single-page
gesture. -/
theorem handleTouchEnd_eq (cfg : SwipeConfig) (now : Int) (t : Touch) (s : SwipeState)
    (ts : TouchSession) (hts : s.touchStart = some ts)
    (hmode : cfg.readingMode = ReadingMode.SINGLE_PAGE)
    (hen : cfg.isSinglePageSwipeEnabled = true) :
    handleTouchEnd cfg now t s =
      if shouldTrigger cfg (now - ts.time) (t.clientX - ts.x) |t.clientY - ts.y| then
        if cfg.isSwipeAnimationEnabled then
          { s with
            pendingFrame := none
            isTransitioning := true
            touchStart := none
            scrollOffset := if t.clientX - ts.x > 0 then cfg.innerWidth else -cfg.innerWidth
            currentOffset := if t.clientX - ts.x > 0 then cfg.innerWidth else -cfg.innerWidth
            pendingCommit := some (if t.clientX - ts.x < 0 then SwipeDirection.next
              else SwipeDirection.previous) }
        else
          resetSwipeState
            { s with
              pendingFrame := none
              openPageCalls := s.openPageCalls ++
                [if t.clientX - ts.x < 0 then SwipeDirection.next
                  else SwipeDirection.previous] }
      else resetSwipeState { s with pendingFrame := none } := by
  simp only [handleTouchEnd, hts]
  rw [if_neg (by simp [hmode, hen])]

/-- C6: mid-gesture events never call `openPage`; the release (followed by
the deferred timer, if any) calls it exactly once when the trigger condition
holds and zero times otherwise; and afterwards the gesture state is reset in
every case - session cleared, offset zeroed, preview cleared, transition
flag cleared. -/
theorem claim_C6_commit_once (cfg : SwipeConfig) (s : SwipeState) (ts : TouchSession)
    (now : Int) (t : Touch)
    (hts : s.touchStart = some ts) (hpc : s.pendingCommit = none)
    (htr : s.isTransitioning = false)
    (hmode : cfg.readingMode = ReadingMode.SINGLE_PAGE)
    (hen : cfg.isSinglePageSwipeEnabled = true) :
    (∀ e, nonCommitEvent e → (step cfg s e).openPageCalls = s.openPageCalls) ∧
    ((fireTimer (handleTouchEnd cfg now t s)).touchStart = none ∧
      (fireTimer (handleTouchEnd cfg now t s)).scrollOffset = 0 ∧
      (fireTimer (handleTouchEnd cfg now t s)).previewDirection = none ∧
      (fireTimer (handleTouchEnd cfg now t s)).isTransitioning = false) ∧
    (shouldTrigger cfg (now - ts.time) (t.clientX - ts.x) |t.clientY - ts.y| →
      (fireTimer (handleTouchEnd cfg now t s)).openPageCalls =
        s.openPageCalls ++
          [if t.clientX - ts.x < 0 then SwipeDirection.next else SwipeDirection.previous]) ∧
    (¬shouldTrigger cfg (now - ts.time) (t.clientX - ts.x) |t.clientY - ts.y| →
      (fireTimer (handleTouchEnd cfg now t s)).openPageCalls = s.openPageCalls) := by
  have hEnd := handleTouchEnd_eq cfg now t s ts hts hmode hen
  refine ⟨?_, ?_⟩
  · intro e he
    cases e with
    | touchStartEv now2 touches =>
      simp only [step]
      unfold handleTouchStart
      (repeat' split) <;> rfl
    | touchMoveEv touches =>
      simp only [step]
      unfold handleTouchMove
      (repeat' split) <;> rfl
    | frameEv =>
      simp only [step]
      unfold fireFrame
      (repeat' split) <;> rfl
    | touchEndEv now2 t2 => exact he.elim
    | timerEv => exact he.elim
  · rw [hEnd]
    by_cases htrig : shouldTrigger cfg (now - ts.time) (t.clientX - ts.x) |t.clientY - ts.y|
    · rw [if_pos htrig]
      by_cases hanim : cfg.isSwipeAnimationEnabled = true
      · rw [if_pos hanim]
        exact ⟨⟨rfl, rfl, rfl, rfl⟩, fun _ => rfl, fun hno => absurd htrig hno⟩
      · rw [if_neg hanim, hpc]
        exact ⟨⟨rfl, rfl, rfl, htr⟩, fun _ => rfl, fun hno => absurd htrig hno⟩
    · rw [if_neg htrig, hpc]
      exact ⟨⟨rfl, rfl, rfl, htr⟩, fun hyes => absurd hyes htrig, fun _ => rfl⟩

/-- Witness for C6: a committing fling with animation enabled calls
`openPage` once and ends fully reset. -/
theorem claim_C6_witness :
    (step cfgLTR sW SEvent.frameEv).openPageCalls = [] ∧
    (fireTimer (handleTouchEnd cfgLTR 100 ⟨200, 100⟩ sW)).openPageCalls
      = [SwipeDirection.previous] ∧
    (fireTimer (handleTouchEnd cfgLTR 100 ⟨200, 100⟩ sW)).touchStart = none ∧
    (fireTimer (handleTouchEnd cfgLTR 100 ⟨200, 100⟩ sW)).isTransitioning = false := by
  have h := claim_C6_commit_once cfgLTR sW tsW 100 ⟨200, 100⟩ rfl rfl rfl rfl rfl
  refine ⟨h.1 SEvent.frameEv trivial, ?_, h.2.1.1, h.2.1.2.2.2⟩
  have h2 := h.2.2.1 (by decide)
  rw [h2]
  decide

/-- Helper: `find?` skips a leading block of non-matching entries. -/
theorem findSkip (p : PageEntry → Bool) (l1 l2 : List PageEntry)
    (h : ∀ q ∈ l1, p q = false) : (l1 ++ l2).find? p = l2.find? p := by
  induction l1 with
  | nil => rfl
  | cons a l ih =>
    rw [List.cons_append, List.find?_cons_of_neg _ (by simp [h a (List.mem_cons_self a l)])]
    exact ih (fun q hq => h q (List.mem_cons_of_mem a hq))

/-- C10 amended: `previewPageUrl` scans the pages in order for the FIRST
entry whose primary or secondary index equals the preview index; that
entry's primary URL is returned when its own primary index matches, its
secondary URL otherwise (so an earlier secondary match shadows a later
primary match, which is what the counterexample forces); with no matching
entry the result is null. -/
theorem claim_C10_amended_first_match (idx : Nat) (pages l1 l2 : List PageEntry)
    (p : PageEntry) :
    ((∀ q ∈ pages, pageMatch idx q = false) →
      previewPageUrlOf (some idx) pages = none) ∧
    (pages = l1 ++ p :: l2 → (∀ q ∈ l1, pageMatch idx q = false) →
      pageMatch idx p = true →
      ((p.primary.index = idx →
        previewPageUrlOf (some idx) pages = some p.primary.url) ∧
       (p.primary.index ≠ idx →
        previewPageUrlOf (some idx) pages = p.secondary.map PageRef.url))) := by
  refine ⟨?_, ?_⟩
  · intro h
    simp only [previewPageUrlOf]
    rw [List.find?_eq_none.mpr (fun x hx => by simp [h x hx])]
  · intro hpages hskip hmatch
    subst hpages
    have hfind : (l1 ++ p :: l2).find? (pageMatch idx) = some p := by
      rw [findSkip (pageMatch idx) l1 (p :: l2) hskip, List.find?_cons_of_pos _ hmatch]
    constructor
    · intro hp
      simp only [previewPageUrlOf]
      rw [hfind]
      exact if_pos hp
    · intro hp
      simp only [previewPageUrlOf]
      rw [hfind]
      exact if_neg hp

/-- Witness for C10 amended on `pagesW`: a primary match after one
non-matching entry, and a no-match lookup. -/
theorem claim_C10_amended_witness :
    previewPageUrlOf (some 1) pagesW = some "b" ∧
    previewPageUrlOf (some 9) pagesW = none := by
  constructor
  · exact ((claim_C10_amended_first_match 1 pagesW [⟨0, ⟨0, "a"⟩, none⟩] []
      ⟨1, ⟨1, "b"⟩, none⟩).2 rfl (by decide) (by decide)).1 rfl
  · exact (claim_C10_amended_first_match 9 pagesW [] [] ⟨0, ⟨0, "a"⟩, none⟩).1 (by decide)

end Swipe
